import Mathlib

/-!
Verification of the places2go data-loading and caching layer.

Each Python construct from the repository is shallowly embedded as an
executable Lean definition:

* `CacheEntry`, `TTLCache` — `src/scripts/core/performance.py`.  Wall-clock
  time (`datetime.now()`) is passed explicitly as an integer timestamp
  `now`; `OrderedDict` becomes an association list whose *front* is the
  oldest / least-recently-used binding and whose *end* is the most
  recently used one (`move_to_end` appends at the end).
* `load_destinations` / `clear_cache` — the per-dataset caching protocol
  of `src/scripts/core/data_loader.py` (`DataLoader`), with an explicit
  read counter as the read-count instrumentation point.
* `load_all`, `get_aggregates`, `filterByDataSource`,
  `latestCostPerDestination` — the merge/aggregate engine of
  `src/scripts/core/data_loader.py`.
* `loadWeatherForecastFlag` — the `forecast_flag` coercion of
  `DataLoader.load_weather` (pandas `read_csv` boolean inference followed
  by `.astype(bool)`).
* `CacheManager.get` — the file-backed cache of
  `src/scripts/data/base_api.py`, with the file system passed as an
  explicit store.
* `validate_dataframe` — modelled from the spec (the function is
  referenced by `src/tests/test_validation.py` but absent from the
  sources).
* `create_temperature_chart_filter`, `update_temperature_chart_selected`
  — the membership filtering of `src/dash_app/callbacks/chart_callbacks.py`
  and `src/dash_app/components/charts.py`.
-/

namespace Places2Go

/-! ### Association-list helpers (model of Python dict / OrderedDict) -/

/-- Look up the value bound to key `k`; Python `d[k]` / `k in d`. -/
def lookupKey {K E : Type} [DecidableEq K] (l : List (K × E)) (k : K) : Option E :=
  match l with
  | [] => none
  | p :: t => if p.1 = k then some p.2 else lookupKey t k

/-- Python `key in dict`. -/
def containsKey {K E : Type} [DecidableEq K] (l : List (K × E)) (k : K) : Bool :=
  (lookupKey l k).isSome

/-- Python `del d[k]`: remove the binding of `k`. -/
def eraseKey {K E : Type} [DecidableEq K] (l : List (K × E)) (k : K) : List (K × E) :=
  l.filter (fun p => decide (p.1 ≠ k))

/-- Python `OrderedDict.move_to_end(k)`: move the binding of `k` to the
end (most-recently-used position).  Only called when `k` is present. -/
def moveToEnd {K E : Type} [DecidableEq K] (l : List (K × E)) (k : K) : List (K × E) :=
  match lookupKey l k with
  | none => l
  | some e => eraseKey l k ++ [(k, e)]

/-! ### TTL cache (`performance.py`, `CacheEntry` + `TTLCache`)

`datetime.now()` is modelled as an explicit integer timestamp argument.
`CacheEntry.__init__` records `expiry = now + ttl_seconds`. -/

/-- `performance.py` `CacheEntry`: a cached value with expiration time. -/
structure CacheEntry (V : Type) where
  value : V
  expiry : Int
deriving DecidableEq

/-- `CacheEntry(value, ttl_seconds)` created at time `now`. -/
def CacheEntry.make {V : Type} (now : Int) (value : V) (ttl_seconds : Int) :
    CacheEntry V :=
  { value := value, expiry := now + ttl_seconds }

/-- `CacheEntry.is_expired`: `datetime.now() > self.expiry` (strict). -/
def CacheEntry.is_expired {V : Type} (e : CacheEntry V) (now : Int) : Bool :=
  decide (now > e.expiry)

/-- `performance.py` `TTLCache`: bounded TTL cache with LRU eviction.
`cache` is the `OrderedDict`; its head is the least recently used
binding.  -/
structure TTLCache (K V : Type) where
  max_size : Nat
  default_ttl : Int
  cache : List (K × CacheEntry V)
  hits : Nat
  misses : Nat
deriving DecidableEq

/-- `TTLCache.get`: value if present and not expired (moving the key to
the most-recently-used position); an expired entry is deleted at this
lookup and counted as a miss. -/
def TTLCache.get {K V : Type} [DecidableEq K]
    (c : TTLCache K V) (now : Int) (key : K) : Option V × TTLCache K V :=
  match lookupKey c.cache key with
  | some entry =>
    if ¬ (entry.is_expired now) = true then
      (some entry.value,
        { c with cache := moveToEnd c.cache key, hits := c.hits + 1 })
    else
      (none, { c with cache := eraseKey c.cache key, misses := c.misses + 1 })
  | none => (none, { c with misses := c.misses + 1 })

/-- `TTLCache.set`: if the cache is full and the key is new, pop the
oldest (front) entry first (`popitem(last=False)`); then bind the key and
move it to the most-recently-used position.  (For `max_size = 0` the
Python `popitem` on an empty dict raises; here the drop is a no-op.) -/
def TTLCache.set {K V : Type} [DecidableEq K]
    (c : TTLCache K V) (now : Int) (key : K) (value : V) (ttl : Option Int) :
    TTLCache K V :=
  let t := ttl.getD c.default_ttl
  let cache1 :=
    if c.cache.length ≥ c.max_size ∧ ¬ containsKey c.cache key = true then
      c.cache.drop 1
    else c.cache
  { c with cache := eraseKey cache1 key ++ [(key, CacheEntry.make now value t)] }

/-- `TTLCache.clear`. -/
def TTLCache.clearAll {K V : Type} (c : TTLCache K V) : TTLCache K V :=
  { c with cache := [], hits := 0, misses := 0 }

/-- `TTLCache(max_size=m, default_ttl=d)`: a fresh, empty cache. -/
def TTLCache.empty (K V : Type) (m : Nat) (d : Int) : TTLCache K V :=
  { max_size := m, default_ttl := d, cache := [], hits := 0, misses := 0 }

/-- The spec's LRU scenario: a `TTLCache(max_size=2)` after
`set("a", 1); set("b", 2); set("c", 3)` at time 0. -/
def lruDemo3 : TTLCache String Nat :=
  (((TTLCache.empty String Nat 2 60).set 0 "a" 1 none).set 0 "b" 2 none).set
    0 "c" 3 none

/-! ### `cache_with_ttl` decorator (`performance.py`) -/

/-- One call of the wrapper produced by `cache_with_ttl(ttl)` around `f`.
A Python function that can return `None` is modelled as `f : A → Option B`
(`none` = `None`), so the decorator's private cache stores `Option B`
values.  The returned triple is (result, new cache state, whether `f` was
invoked).  The wrapper's `if result is not None` check sees `None` both
on a cache miss and on a cache hit whose stored value is `None`, and in
either case calls `f` and re-stores the result. -/
def cache_with_ttl_call {A B : Type} [DecidableEq A] (f : A → Option B)
    (ttl : Int) (st : TTLCache A (Option B)) (now : Int) (args : A) :
    Option B × TTLCache A (Option B) × Bool :=
  let res := st.get now args
  match res.1 with
  | some (some v) => (some v, res.2, false)
  | _ =>
    let result := f args
    (result, res.2.set now args result (some ttl), true)

/-- Invariant of the decorator's private cache: every stored value is a
result of `f` on its key (the wrapper is the cache's only writer). -/
def CacheConsistent {A B : Type} [DecidableEq A] (f : A → Option B)
    (st : TTLCache A (Option B)) : Prop :=
  ∀ p, p ∈ st.cache → (p.2).value = f p.1

/-! ### `DataLoader` per-dataset caching (`data_loader.py`) -/

/-- The slice of `DataLoader` state for one dataset: the cached frame
(`self.destinations_df`) and a read counter (the
`read_destinations_csv` profiling point used as read-count
instrumentation). -/
structure DataLoaderState (T : Type) where
  destinations_df : Option T
  readCount : Nat
deriving DecidableEq

inductive LoadErr
  | fileNotFound
deriving DecidableEq

/-- `DataLoader.load_destinations(reload)`: reads the CSV only when the
cache is `None` or `reload=True`; `fs` is the backing file's parsed
contents (`none` = file absent → `FileNotFoundError`). -/
def load_destinations {T : Type} (fs : Option T) (st : DataLoaderState T)
    (reload : Bool) : Except LoadErr (T × DataLoaderState T) :=
  match st.destinations_df, reload with
  | some df, false => .ok (df, st)
  | _, _ =>
    match fs with
    | none => .error .fileNotFound
    | some t =>
      .ok (t, { destinations_df := some t, readCount := st.readCount + 1 })

/-- `DataLoader.clear_cache()`: drop the cached frame so the next load
re-reads the file. -/
def clear_cache {T : Type} (st : DataLoaderState T) : DataLoaderState T :=
  { st with destinations_df := none }

/-- `n` successive `load_destinations()` calls without `reload`,
collecting the returned tables. -/
def loadRepeat {T : Type} (fs : Option T) (st : DataLoaderState T) :
    Nat → Except LoadErr (List T × DataLoaderState T)
  | 0 => .ok ([], st)
  | n + 1 =>
    match load_destinations fs st false with
    | .error e => .error e
    | .ok (t, st') =>
      match loadRepeat fs st' n with
      | .error e => .error e
      | .ok (ts, st'') => .ok (t :: ts, st'')

/-! ### Tabular rows (`data_loader.py` datasets)

Only the columns touched by the merge / aggregate / filter operations
under verification are carried; float columns are modelled as rationals
and date columns as integer day ordinals. -/

structure DestRow where
  destination_id : Int
  name : String
  country : String
deriving DecidableEq

structure CostRow where
  destination_id : Int
  data_date : Int
  monthly_living_cost : ℚ
  data_source : String
deriving DecidableEq

structure FlightRow where
  flight_id : Int
  destination_id : Int
  departure_date : Int
  price : ℚ
  data_source : String
deriving DecidableEq

structure WeatherRow where
  weather_id : Int
  destination_id : Int
  date : Int
  temp_avg_c : ℚ
  temp_high_c : ℚ
  temp_low_c : ℚ
  rainfall_mm : ℚ
  uv_index : ℚ
  sunshine_hours : ℚ
  forecast_flag : Bool
  data_source : String
deriving DecidableEq

/-- The repeated `if data_source: df = df[df["data_source"] == data_source]`
pattern of `load_costs` / `load_flights` / `load_weather`.  `none`
models Python `None`; the empty string is likewise falsy in Python, so
in both cases no filter is applied. -/
def filterByDataSource {R : Type} (getSrc : R → String)
    (data_source : Option String) (rows : List R) : List R :=
  match data_source with
  | none => rows
  | some s =>
    if s = "" then rows else rows.filter (fun r => decide (getSrc r = s))

/-- Insertion step of a stable sort by `data_date`. -/
def insertByDate (c : CostRow) : List CostRow → List CostRow
  | [] => [c]
  | d :: t =>
    if c.data_date ≤ d.data_date then c :: d :: t else d :: insertByDate c t

/-- `costs.sort_values("data_date")`. -/
def sortByDate (costs : List CostRow) : List CostRow :=
  costs.foldr insertByDate []

/-- Insertion step for the sorted distinct group keys of a `groupby`
(pandas sorts group keys ascending). -/
def insertSortedUnique (i : Int) : List Int → List Int
  | [] => [i]
  | j :: t =>
    if i = j then j :: t
    else if i < j then i :: j :: t
    else j :: insertSortedUnique i t

def sortedUniqueIds (ids : List Int) : List Int :=
  ids.foldr insertSortedUnique []

/-- `.last()` within one `groupby("destination_id")` group of the
date-sorted frame: the group's last row. -/
def lastRowFor (rows : List CostRow) (i : Int) : Option CostRow :=
  (rows.filter (fun c => decide (c.destination_id = i))).getLast?

/-- `costs.sort_values("data_date").groupby("destination_id").last()
.reset_index()`: one row per destination id — the latest-dated one. -/
def latestCostPerDestination (costs : List CostRow) : List CostRow :=
  (sortedUniqueIds (costs.map (fun c => c.destination_id))).filterMap
    (fun i => lastRowFor (sortByDate costs) i)

/-- One row of the `load_all` result: destination columns plus the
cost / flight / weather columns contributed by each merge (`none` =
the NaNs of an unmatched left join). -/
structure MergedRow where
  dest : DestRow
  cost : Option CostRow
  flight : Option FlightRow
  weather : Option WeatherRow
deriving DecidableEq

/-- `destinations.merge(costs, on="destination_id", how="left")`. -/
def mergeLeftCost (dests : List DestRow) (costs : List CostRow) :
    List MergedRow :=
  dests.flatMap (fun d =>
    match costs.filter (fun c => decide (c.destination_id = d.destination_id)) with
    | [] => [{ dest := d, cost := none, flight := none, weather := none }]
    | cs => cs.map (fun c =>
        { dest := d, cost := some c, flight := none, weather := none }))

/-- `result.merge(flights, on="destination_id", how="left")` — fan-out:
one accumulated row becomes one row per matching flight. -/
def mergeLeftFlights (rows : List MergedRow) (flights : List FlightRow) :
    List MergedRow :=
  rows.flatMap (fun r =>
    match flights.filter (fun f =>
        decide (f.destination_id = r.dest.destination_id)) with
    | [] => [{ r with flight := none }]
    | fs => fs.map (fun f => { r with flight := some f }))

/-- Weather joined on `(destination_id, departure_date)` when the
accumulated result carries a `departure_date` column; a row whose
flight part is missing has a NaN departure date, which matches no
weather date. -/
def mergeLeftWeatherByDate (rows : List MergedRow)
    (weather : List WeatherRow) : List MergedRow :=
  rows.flatMap (fun r =>
    match weather.filter (fun w =>
        decide (w.destination_id = r.dest.destination_id ∧
          some w.date = r.flight.map FlightRow.departure_date)) with
    | [] => [{ r with weather := none }]
    | ws => ws.map (fun w => { r with weather := some w }))

/-- Weather joined on `destination_id` alone (no flights merged). -/
def mergeLeftWeatherById (rows : List MergedRow)
    (weather : List WeatherRow) : List MergedRow :=
  rows.flatMap (fun r =>
    match weather.filter (fun w =>
        decide (w.destination_id = r.dest.destination_id)) with
    | [] => [{ r with weather := none }]
    | ws => ws.map (fun w => { r with weather := some w }))

/-- `DataLoader.load_all(data_source, merge_strategy="left")` over
already-loaded tables, in the source's default left mode: filter each
dynamic table by source tag, collapse costs to the latest-dated row per
destination (when non-empty), left-join costs onto destinations, then
flights (fan-out), then weather — on `(destination_id, departure_date)`
exactly when a `departure_date` column is present, i.e. when the flight
merge happened; empty flight / weather tables skip their merge step. -/
def load_all (dests : List DestRow) (costs : List CostRow)
    (flights : List FlightRow) (weather : List WeatherRow)
    (data_source : Option String) : List MergedRow :=
  let costsF := filterByDataSource CostRow.data_source data_source costs
  let costsC := if costsF.isEmpty then costsF else latestCostPerDestination costsF
  let flightsF := filterByDataSource FlightRow.data_source data_source flights
  let weatherF := filterByDataSource WeatherRow.data_source data_source weather
  let result := mergeLeftCost dests costsC
  let result := if flightsF.isEmpty then result
    else mergeLeftFlights result flightsF
  if weatherF.isEmpty then result
  else if flightsF.isEmpty then mergeLeftWeatherById result weatherF
  else mergeLeftWeatherByDate result weatherF

/-! ### Aggregates (`DataLoader.get_aggregates`) -/

def listSum (l : List ℚ) : ℚ := l.foldr (fun a b => a + b) 0

def listMean (l : List ℚ) : ℚ := listSum l / l.length

def listMin (l : List ℚ) : ℚ :=
  match l with
  | [] => 0
  | a :: t => t.foldl min a

def listMax (l : List ℚ) : ℚ :=
  match l with
  | [] => 0
  | a :: t => t.foldl max a

/-- numpy / pandas rounding: ties to even (banker's rounding). -/
def roundHalfEven (q : ℚ) : Int :=
  if q - ⌊q⌋ = (1 : ℚ) / 2 then (if ⌊q⌋ % 2 = 0 then ⌊q⌋ else ⌊q⌋ + 1)
  else round q

/-- pandas `.round(2)`. -/
def round2 (q : ℚ) : ℚ := (roundHalfEven (q * 100) : ℚ) / 100

structure FlightAgg where
  avg_flight_price : ℚ
  min_flight_price : ℚ
  max_flight_price : ℚ
  flight_count : Nat
deriving DecidableEq

structure WeatherAgg where
  avg_temp : ℚ
  max_temp : ℚ
  min_temp : ℚ
  total_rainfall : ℚ
  avg_uv_index : ℚ
  total_sunshine_hours : ℚ
deriving DecidableEq

structure AggRow where
  destination_id : Int
  name : String
  country : String
  monthly_living_cost : Option ℚ
  flight : Option FlightAgg
  weather : Option WeatherAgg
deriving DecidableEq

/-- The `get_aggregates` result: rows plus which aggregate column groups
exist at all.  A merge skipped because its source table is empty leaves
its columns absent from the frame, which is distinct from a present
column holding NaN for one destination without data. -/
structure AggTable where
  has_cost_cols : Bool
  has_flight_cols : Bool
  has_weather_cols : Bool
  rows : List AggRow
deriving DecidableEq

/-- `flights.groupby("destination_id").agg({"price": [mean,min,max,count]})
.round(2)`, joined `how="left"`: the aggregate reaching one destination,
`none` when it has no flight rows. -/
def flightAggFor (flights : List FlightRow) (i : Int) : Option FlightAgg :=
  match flights.filter (fun f => decide (f.destination_id = i)) with
  | [] => none
  | fs => some { avg_flight_price := round2 (listMean (fs.map FlightRow.price)),
                 min_flight_price := round2 (listMin (fs.map FlightRow.price)),
                 max_flight_price := round2 (listMax (fs.map FlightRow.price)),
                 flight_count := fs.length }

/-- The weather `groupby("destination_id").agg(...)` of `get_aggregates`,
joined `how="left"`. -/
def weatherAggFor (weather : List WeatherRow) (i : Int) : Option WeatherAgg :=
  match weather.filter (fun w => decide (w.destination_id = i)) with
  | [] => none
  | ws => some { avg_temp := round2 (listMean (ws.map WeatherRow.temp_avg_c)),
                 max_temp := round2 (listMax (ws.map WeatherRow.temp_high_c)),
                 min_temp := round2 (listMin (ws.map WeatherRow.temp_low_c)),
                 total_rainfall := round2 (listSum (ws.map WeatherRow.rainfall_mm)),
                 avg_uv_index := round2 (listMean (ws.map WeatherRow.uv_index)),
                 total_sunshine_hours :=
                   round2 (listSum (ws.map WeatherRow.sunshine_hours)) }

/-- `DataLoader.get_aggregates(data_source)` over already-loaded tables:
one result row per destination row; each dynamic table is merged only
when non-empty after source filtering. -/
def get_aggregates (dests : List DestRow) (costs : List CostRow)
    (flights : List FlightRow) (weather : List WeatherRow)
    (data_source : Option String) : AggTable :=
  let costsF := filterByDataSource CostRow.data_source data_source costs
  let flightsF := filterByDataSource FlightRow.data_source data_source flights
  let weatherF := filterByDataSource WeatherRow.data_source data_source weather
  { has_cost_cols := !costsF.isEmpty,
    has_flight_cols := !flightsF.isEmpty,
    has_weather_cols := !weatherF.isEmpty,
    rows := dests.map (fun d =>
      { destination_id := d.destination_id,
        name := d.name,
        country := d.country,
        monthly_living_cost :=
          if costsF.isEmpty then none
          else ((latestCostPerDestination costsF).find? (fun c =>
            decide (c.destination_id = d.destination_id))).map
            CostRow.monthly_living_cost,
        flight :=
          if flightsF.isEmpty then none
          else flightAggFor flightsF d.destination_id,
        weather :=
          if weatherF.isEmpty then none
          else weatherAggFor weatherF d.destination_id }) }

/-! ### `forecast_flag` coercion (`DataLoader.load_weather`) -/

/-- A raw cell of the `forecast_flag` column. -/
inductive RawCell
  | str (s : String)
  | bool (b : Bool)
deriving DecidableEq

/-- The boolean literals the pandas CSV parser recognises. -/
def parseBoolLiteral (s : String) : Option Bool :=
  if s = "True" ∨ s = "TRUE" ∨ s = "true" then some true
  else if s = "False" ∨ s = "FALSE" ∨ s = "false" then some false
  else none

/-- `pd.read_csv` column inference: a column whose cells are all boolean
literals is parsed as a boolean column; otherwise the cells stay
strings. -/
def readCsvColumn (raw : List String) : List RawCell :=
  match raw.mapM parseBoolLiteral with
  | some bs => bs.map RawCell.bool
  | none => raw.map RawCell.str

/-- Python truthiness, as applied cell-wise by `Series.astype(bool)` on
an object column: a string is truthy iff non-empty. -/
def pyTruthy : RawCell → Bool
  | .bool b => b
  | .str s => decide (s ≠ "")

/-- `df["forecast_flag"].astype(bool)` (`data_loader.py` lines 280-282). -/
def astypeBool (cells : List RawCell) : List Bool := cells.map pyTruthy

/-- The `forecast_flag` pipeline of `load_weather` for a freshly read
CSV column: `read_csv` inference followed by `.astype(bool)`. -/
def loadWeatherForecastFlag (raw : List String) : List Bool :=
  astypeBool (readCsvColumn raw)

/-! ### Membership filtering (`charts.py` / `chart_callbacks.py`) -/

/-- `create_temperature_chart_component`: `if filtered_dest:` — an empty
selection list is falsy, so no destination filter is applied; otherwise
keep the weather rows whose destination id belongs to a selected-name
destination. -/
def create_temperature_chart_filter (weather : List WeatherRow)
    (dests : List DestRow) (filtered_dest : List String) : List WeatherRow :=
  if filtered_dest.isEmpty then weather
  else
    let dest_ids := (dests.filter
      (fun d => decide (d.name ∈ filtered_dest))).map DestRow.destination_id
    weather.filter (fun w => decide (w.destination_id ∈ dest_ids))

/-- `update_temperature_chart`: an empty `destinations` selection is
replaced by the full list of destination names before filtering. -/
def update_temperature_chart_selected (dests : List DestRow)
    (sel : List String) : List String :=
  if sel.isEmpty then dests.map DestRow.name else sel

/-! ### File-backed cache (`base_api.py`, `CacheManager`) -/

inductive Json
  | null
  | bool (b : Bool)
  | num (n : Int)
  | str (s : String)
  | arr (elems : List Json)
  | obj (fields : List (String × Json))

/-- A persisted cache file's contents: not valid JSON at all, or a JSON
document. -/
inductive CacheFile
  | notJson
  | json (j : Json)

/-- Python exceptions `CacheManager.get` does *not* catch. -/
inductive PyErr
  | typeError
deriving DecidableEq

/-- A value returned from the cache: a plain JSON value, or a
reconstructed dataframe (`_data` records plus `_columns` order). -/
inductive CacheValue
  | plain (j : Json)
  | dataframe (data cols : Json)

/-- `datetime.fromisoformat` stand-in: timestamp strings parse to the
integer they spell; any other string raises `ValueError` (caught by the
corruption handler). -/
def parseIsoDate (s : String) : Option Int := s.toInt?

/-- The dataframe-reconstruction step of `CacheManager.get` (lines
80-84): a dict tagged `"_type": "dataframe"` is rebuilt from its
`_data`/`_columns` fields — a missing one raises `KeyError`, caught by
the corruption handler (delete the file, miss); any other value is
returned as-is. -/
def CacheManager.decodeDataObj (store : List (String × CacheFile))
    (key : String) (dfields : List (String × Json)) :
    Except PyErr (Option CacheValue × List (String × CacheFile)) :=
  match lookupKey dfields "_type" with
  | some (.str t) =>
    if t = "dataframe" then
      match lookupKey dfields "_data", lookupKey dfields "_columns" with
      | some d, some c => .ok (some (.dataframe d c), store)
      | _, _ => .ok (none, eraseKey store key)
    else .ok (some (.plain (.obj dfields)), store)
  | _ => .ok (some (.plain (.obj dfields)), store)

def CacheManager.decodeData (store : List (String × CacheFile))
    (key : String) (data : Json) :
    Except PyErr (Option CacheValue × List (String × CacheFile)) :=
  match data with
  | .obj dfields => CacheManager.decodeDataObj store key dfields
  | _ => .ok (some (.plain data), store)

/-- `CacheManager.get` on a parsed JSON envelope object: a missing
`expiry`/`data` field (`KeyError`) or an unparseable `expiry` string
(`ValueError`) is caught — delete the file, miss; an expired entry is
likewise deleted; a non-string `expiry` would raise an uncaught
`TypeError` in `fromisoformat`. -/
def CacheManager.getEnvelope (store : List (String × CacheFile))
    (now : Int) (key : String) (fields : List (String × Json)) :
    Except PyErr (Option CacheValue × List (String × CacheFile)) :=
  match lookupKey fields "expiry" with
  | none => .ok (none, eraseKey store key)
  | some (.str s) =>
    (match parseIsoDate s with
     | none => .ok (none, eraseKey store key)
     | some expiry =>
       if now > expiry then .ok (none, eraseKey store key)
       else
         match lookupKey fields "data" with
         | none => .ok (none, eraseKey store key)
         | some data => CacheManager.decodeData store key data)
  | some _ => .error .typeError

/-- `CacheManager.get(key)` over an explicit file store: a missing file
is a plain miss; a file that fails `json.load` is deleted and reported
as a miss; a JSON document that is not an object would raise an
uncaught `TypeError` at `cache_data["expiry"]`. -/
def CacheManager.get (store : List (String × CacheFile)) (now : Int)
    (key : String) :
    Except PyErr (Option CacheValue × List (String × CacheFile)) :=
  match lookupKey store key with
  | none => .ok (none, store)
  | some .notJson => .ok (none, eraseKey store key)
  | some (.json j) =>
    match j with
    | .obj fields => CacheManager.getEnvelope store now key fields
    | _ => .error .typeError

def malformedDataObj (dfields : List (String × Json)) : Bool :=
  match lookupKey dfields "_type" with
  | some (.str t) =>
    if t = "dataframe" then
      (match lookupKey dfields "_data", lookupKey dfields "_columns" with
       | some _, some _ => false
       | _, _ => true)
    else false
  | _ => false

/-- A dataframe-tagged dict missing `_data` or `_columns`. -/
def malformedData (data : Json) : Bool :=
  match data with
  | .obj dfields => malformedDataObj dfields
  | _ => false

/-- An envelope object missing `expiry` or `data`, or with an `expiry`
string that does not parse, or with a malformed dataframe value. -/
def malformedFields (fields : List (String × Json)) : Bool :=
  match lookupKey fields "expiry" with
  | none => true
  | some (.str s) =>
    (match parseIsoDate s with
     | none => true
     | some _ =>
       match lookupKey fields "data" with
       | none => true
       | some data => malformedData data)
  | some _ => false

/-- The malformed-file shapes the claim describes, all of which
`CacheManager.get` catches: invalid JSON, or a malformed envelope. -/
def malformedEnvelope : CacheFile → Bool
  | .notJson => true
  | .json (.obj fields) => malformedFields fields
  | .json _ => false

/-! ### Validation layer (`validate_dataframe`) -/

/-- A cell of a loaded table: missing (NaN), numeric, or string. -/
inductive Cell
  | null
  | num (q : ℚ)
  | str (s : String)
deriving DecidableEq

/-- A dataframe in column-major form: column names with their cells. -/
structure Df where
  cols : List (String × List Cell)
deriving DecidableEq

def Df.columns (df : Df) : List String := df.cols.map Prod.fst

def Df.colCells (df : Df) (c : String) : List Cell :=
  (lookupKey df.cols c).getD []

def Df.nRows (df : Df) : Nat :=
  match df.cols with
  | [] => 0
  | p :: _ => p.2.length

/-- pandas `df.empty`: some axis has length zero. -/
def Df.isEmptyDf (df : Df) : Bool := df.cols.isEmpty || decide (df.nRows = 0)

def requiredColumns : List String :=
  ["Destination", "Airport", "Flight Cost (GBP)", "Flight Time (hrs)",
   "Avg Temp (°C)", "UV Index", "Monthly Living Cost (GBP)",
   "Meal Cost (GBP)", "Beer Cost (GBP)", "Weed Cost (GBP per gram)"]

def numericColumns : List String :=
  ["Flight Cost (GBP)", "Flight Time (hrs)", "Avg Temp (°C)", "UV Index",
   "Monthly Living Cost (GBP)", "Meal Cost (GBP)", "Beer Cost (GBP)",
   "Weed Cost (GBP per gram)"]

def criticalColumns : List String := ["Destination", "Airport"]

def positiveColumns : List String :=
  ["Flight Cost (GBP)", "Flight Time (hrs)", "Monthly Living Cost (GBP)",
   "Meal Cost (GBP)", "Beer Cost (GBP)", "Weed Cost (GBP per gram)"]

def Cell.isNull : Cell → Bool
  | .null => true
  | _ => false

def Cell.isNonNumeric : Cell → Bool
  | .str _ => true
  | _ => false

def Cell.isNonPositive : Cell → Bool
  | .num q => decide (q ≤ 0)
  | _ => false

def missingColumnsOf (df : Df) : List String :=
  requiredColumns.filter (fun c => decide (c ∉ df.columns))

/-- Numeric columns whose non-missing values are not all numeric (an
entirely missing column is exempt). -/
def nonNumericColumnsOf (df : Df) : List String :=
  numericColumns.filter (fun c => (df.colCells c).any Cell.isNonNumeric)

/-- Critical columns with their missing-value counts. -/
def nullCriticalOf (df : Df) : List (String × Nat) :=
  criticalColumns.filterMap (fun c =>
    if ((df.colCells c).filter Cell.isNull).length = 0 then none
    else some (c, ((df.colCells c).filter Cell.isNull).length))

/-- Must-be-positive columns with their invalid-value counts. -/
def nonPositiveOf (df : Df) : List (String × Nat) :=
  positiveColumns.filterMap (fun c =>
    if ((df.colCells c).filter Cell.isNonPositive).length = 0 then none
    else some (c, ((df.colCells c).filter Cell.isNonPositive).length))

inductive ValidationErr
  | emptyDataFrame
  | missingColumns (missing : List String) (available : List String)
  | nonNumericColumns (cols : List String)
  | nullCriticalColumns (cols : List (String × Nat))
  | nonPositiveColumns (cols : List (String × Nat))
deriving DecidableEq

/-- Modelled from the spec: `validate_dataframe` is referenced by
`src/tests/test_validation.py` and called from `load_data` there, but
the function itself is absent from the sources.  Spec §4.2 fixes the
check order — empty table, then missing required columns, then
non-numeric values in numeric columns, then missing values in critical
columns, then non-positive values in must-be-positive columns — raising
at the first failing category and reporting, within that category,
every offending column together with its offending-value count. -/
def validate_dataframe (df : Df) : Except ValidationErr Unit :=
  if df.isEmptyDf then .error .emptyDataFrame
  else if ¬ missingColumnsOf df = [] then
    .error (.missingColumns (missingColumnsOf df) df.columns)
  else if ¬ nonNumericColumnsOf df = [] then
    .error (.nonNumericColumns (nonNumericColumnsOf df))
  else if ¬ nullCriticalOf df = [] then
    .error (.nullCriticalColumns (nullCriticalOf df))
  else if ¬ nonPositiveOf df = [] then
    .error (.nonPositiveColumns (nonPositiveOf df))
  else .ok ()

theorem lookupKey_eraseKey_self {K E : Type} [DecidableEq K]
    (l : List (K × E)) (k : K) : lookupKey (eraseKey l k) k = none := by
  induction l with
  | nil => rfl
  | cons p t ih =>
    rw [eraseKey, List.filter_cons]
    by_cases hp : p.1 = k
    · rw [if_neg (by simp [hp])]
      exact ih
    · rw [if_pos (by simp [hp])]
      show lookupKey (p :: eraseKey t k) k = none
      simp only [lookupKey, if_neg hp]
      exact ih

theorem lookupKey_eraseKey_ne {K E : Type} [DecidableEq K]
    (l : List (K × E)) (k k' : K) (h : k' ≠ k) :
    lookupKey (eraseKey l k) k' = lookupKey l k' := by
  induction l with
  | nil => rfl
  | cons p t ih =>
    rw [eraseKey, List.filter_cons]
    by_cases hp : p.1 = k
    · rw [if_neg (by simp [hp])]
      have hne : ¬ p.1 = k' := by
        rw [hp]; exact fun hc => h hc.symm
      show lookupKey (eraseKey t k) k' = lookupKey (p :: t) k'
      simp only [lookupKey, if_neg hne]
      exact ih
    · rw [if_pos (by simp [hp])]
      show lookupKey (p :: eraseKey t k) k' = lookupKey (p :: t) k'
      simp only [lookupKey]
      by_cases hk' : p.1 = k'
      · rw [if_pos hk', if_pos hk']
      · rw [if_neg hk', if_neg hk']
        exact ih

theorem lookupKey_append {K E : Type} [DecidableEq K]
    (l₁ l₂ : List (K × E)) (k : K) :
    lookupKey (l₁ ++ l₂) k =
      match lookupKey l₁ k with
      | some e => some e
      | none => lookupKey l₂ k := by
  induction l₁ with
  | nil => rfl
  | cons p t ih =>
    rw [List.cons_append]
    simp only [lookupKey]
    by_cases h : p.1 = k
    · rw [if_pos h, if_pos h]
    · rw [if_neg h, if_neg h]
      exact ih

theorem lookupKey_moveToEnd_ne {K E : Type} [DecidableEq K]
    (l : List (K × E)) (k k' : K) (h : k' ≠ k) :
    lookupKey (moveToEnd l k) k' = lookupKey l k' := by
  unfold moveToEnd
  cases hl : lookupKey l k with
  | none => rfl
  | some e =>
    rw [lookupKey_append]
    rw [lookupKey_eraseKey_ne l k k' h]
    cases hk' : lookupKey l k' with
    | none => simp [lookupKey, Ne.symm h]
    | some e' => rfl

theorem containsKey_moveToEnd {K E : Type} [DecidableEq K]
    (l : List (K × E)) (k k' : K) :
    containsKey (moveToEnd l k) k' = containsKey l k' := by
  by_cases h : k' = k
  · subst h
    unfold moveToEnd
    cases hl : lookupKey l k' with
    | none => rfl
    | some e =>
      simp only [containsKey, lookupKey_append, lookupKey_eraseKey_self, hl]
      simp [lookupKey]
  · simp [containsKey, lookupKey_moveToEnd_ne l k k' h]


theorem eraseKey_of_not_contains {K E : Type} [DecidableEq K]
    (l : List (K × E)) (k : K) (h : containsKey l k = false) :
    eraseKey l k = l := by
  induction l with
  | nil => rfl
  | cons p t ih =>
    simp only [containsKey, lookupKey] at h
    by_cases hp : p.1 = k
    · rw [if_pos hp] at h
      simp at h
    · rw [if_neg hp] at h
      rw [eraseKey, List.filter_cons, if_pos (by simp [hp])]
      show p :: eraseKey t k = p :: t
      rw [ih h]

/-- After `set`, the key is bound to the fresh entry. -/
theorem lookupKey_after_set {K V : Type} [DecidableEq K]
    (c : TTLCache K V) (now : Int) (k : K) (v : V) (ttl : Option Int) :
    lookupKey (c.set now k v ttl).cache k =
      some (CacheEntry.make now v (ttl.getD c.default_ttl)) := by
  unfold TTLCache.set
  rw [lookupKey_append, lookupKey_eraseKey_self]
  simp [lookupKey]

theorem containsKey_eraseKey_ne {K E : Type} [DecidableEq K]
    (l : List (K × E)) (k k' : K) (h : k' ≠ k) :
    containsKey (eraseKey l k) k' = containsKey l k' := by
  simp [containsKey, lookupKey_eraseKey_ne l k k' h]

/-- C1: after `set(k, v, ttl=t)` at time `s`, a `get(k)` at any time
`u ≤ s + t` returns `v`, while a `get(k)` at any `u > s + t` returns
`None` and deletes the entry at that lookup; until such a `get(k)`, the
entry physically remains stored — in particular a `get` on any other key
at any time leaves it in place (lazy purge, no background sweep). -/
theorem ttlcache_expiry_lazy_purge {K V : Type} [DecidableEq K]
    (c : TTLCache K V) (s t : Int) (k : K) (v : V) (c' : TTLCache K V)
    (hc' : c' = c.set s k v (some t)) :
    (∀ u : Int, u ≤ s + t → (c'.get u k).1 = some v) ∧
    (∀ u : Int, s + t < u →
      (c'.get u k).1 = none ∧ containsKey ((c'.get u k).2).cache k = false) ∧
    containsKey c'.cache k = true ∧
    (∀ (u : Int) (k' : K), k' ≠ k →
      containsKey ((c'.get u k').2).cache k = true) := by
  subst hc'
  have hk : lookupKey (TTLCache.set c s k v (some t)).cache k
      = some (CacheEntry.make s v t) := by
    simpa using lookupKey_after_set c s k v (some t)
  have hcontains : containsKey (TTLCache.set c s k v (some t)).cache k = true := by
    simp [containsKey, hk]
  refine ⟨?_, ?_, hcontains, ?_⟩
  · intro u hu
    have hexp : (CacheEntry.make s v t).is_expired u = false := by
      simp only [CacheEntry.is_expired, CacheEntry.make, decide_eq_false_iff_not,
        not_lt, gt_iff_lt]
      exact hu
    unfold TTLCache.get
    rw [hk]
    simp only [Bool.not_eq_true]
    rw [if_pos hexp]
    simp [CacheEntry.make]
  · intro u hu
    have hexp : (CacheEntry.make s v t).is_expired u = true := by
      simp only [CacheEntry.is_expired, CacheEntry.make, decide_eq_true_eq, gt_iff_lt]
      exact hu
    constructor
    · unfold TTLCache.get
      rw [hk]
      simp [hexp]
    · unfold TTLCache.get
      rw [hk]
      simp only [hexp, not_true, if_neg, ite_false, Bool.true_eq_false,
        Bool.false_eq_true, not_false_eq_true, if_false]
      simp [containsKey, lookupKey_eraseKey_self]
  · intro u k' hne
    unfold TTLCache.get
    cases hl : lookupKey (TTLCache.set c s k v (some t)).cache k' with
    | none => exact hcontains
    | some entry =>
      by_cases hexp : entry.is_expired u = true
      · simp only [hexp]
        simp only [not_true, Bool.true_eq_false, if_false, ite_false]
        rw [containsKey_eraseKey_ne _ k' k (Ne.symm hne)]
        exact hcontains
      · simp only [hexp]
        simp only [Bool.false_eq_true, not_false_eq_true, if_true, ite_true]
        rw [containsKey_moveToEnd]
        exact hcontains

/-- C1 witness: concrete instantiation (`set` at time 0 with TTL 10,
boundary lookup at 10 hits, lookup at 11 misses and purges). -/
theorem ttlcache_expiry_lazy_purge_witness :
    (10 : Int) ≤ 0 + 10 ∧
    (((TTLCache.empty String Nat 4 60).set 0 "k" 7 (some 10)).get 10 "k").1
      = some 7 := by
  refine ⟨by decide, ?_⟩
  have h := ttlcache_expiry_lazy_purge (K := String) (V := Nat)
    (TTLCache.empty String Nat 4 60) 0 10 "k" 7 _ rfl
  exact h.1 10 (by decide)

theorem containsKey_eq_true_iff {K E : Type} [DecidableEq K]
    (l : List (K × E)) (k : K) :
    containsKey l k = true ↔ k ∈ l.map Prod.fst := by
  induction l with
  | nil => simp [containsKey, lookupKey]
  | cons p t ih =>
    simp only [containsKey, lookupKey, List.map_cons, List.mem_cons]
    by_cases hp : p.1 = k
    · simp [hp]
    · rw [if_neg hp]
      simp only [containsKey] at ih
      rw [ih]
      have : ¬ k = p.1 := fun hc => hp hc.symm
      simp [this]

theorem length_eraseKey_lt_of_contains {K E : Type} [DecidableEq K]
    (l : List (K × E)) (k : K) (h : containsKey l k = true) :
    (eraseKey l k).length < l.length := by
  induction l with
  | nil => simp [containsKey, lookupKey] at h
  | cons p t ih =>
    simp only [containsKey, lookupKey] at h
    by_cases hp : p.1 = k
    · rw [eraseKey, List.filter_cons, if_neg (by simp [hp])]
      have h1 : (eraseKey t k).length ≤ t.length := List.length_filter_le _ _
      simp only [List.length_cons]
      exact Nat.lt_succ_of_le h1
    · rw [if_neg hp] at h
      rw [eraseKey, List.filter_cons, if_pos (by simp [hp])]
      have := ih h
      simp only [List.length_cons]
      exact Nat.succ_lt_succ this

theorem length_eraseKey_nodup {K E : Type} [DecidableEq K]
    (l : List (K × E)) (k : K) (hnd : (l.map Prod.fst).Nodup)
    (h : containsKey l k = true) :
    (eraseKey l k).length + 1 = l.length := by
  induction l with
  | nil => simp [containsKey, lookupKey] at h
  | cons p t ih =>
    simp only [List.map_cons, List.nodup_cons] at hnd
    simp only [containsKey, lookupKey] at h
    by_cases hp : p.1 = k
    · rw [eraseKey, List.filter_cons, if_neg (by simp [hp])]
      have hfresh : containsKey t k = false := by
        rw [← Bool.not_eq_true, containsKey_eq_true_iff]
        rw [← hp]
        exact hnd.1
      rw [show List.filter (fun p => decide (p.1 ≠ k)) t = eraseKey t k from rfl]
      rw [eraseKey_of_not_contains t k hfresh]
      simp
    · rw [if_neg hp] at h
      have hstep : eraseKey (p :: t) k = p :: eraseKey t k := by
        rw [eraseKey, List.filter_cons, if_pos (by simp [hp])]
        rfl
      rw [hstep]
      have := ih hnd.2 h
      simp only [List.length_cons]
      omega

theorem getLast?_append_singleton {α : Type} (l : List α) (a : α) :
    (l ++ [a]).getLast? = some a := by
  induction l with
  | nil => rfl
  | cons x t ih =>
    rw [List.cons_append]
    cases t with
    | nil => rfl
    | cons y t' =>
      rw [show (y :: t') ++ [a] = y :: (t' ++ [a]) from rfl,
        List.getLast?_cons_cons]
      rw [show y :: (t' ++ [a]) = (y :: t') ++ [a] from rfl]
      exact ih

/-- C2: the cache never exceeds `max_size` entries (a `get` never grows
it); a `set` at capacity with a fresh key evicts exactly the front —
least-recently-used — entry and keeps all others; a `set` on a present
key evicts nothing and refreshes that key's recency (it becomes the
most-recently-used binding), and a `get` hit also refreshes recency;
concretely, with `max_size = 2`, `set(a); set(b); set(c)` makes `get(a)`
miss while `get(b)` and `get(c)` hit. -/
theorem ttlcache_lru_eviction :
    (∀ (K V : Type) [DecidableEq K] (c : TTLCache K V) (now : Int) (k : K) (v : V)
      (ttl : Option Int), 1 ≤ c.max_size → c.cache.length ≤ c.max_size →
      (c.set now k v ttl).cache.length ≤ c.max_size) ∧
    (∀ (K V : Type) [DecidableEq K] (c : TTLCache K V) (now : Int) (k : K),
      ((c.get now k).2).cache.length ≤ c.cache.length) ∧
    (∀ (K V : Type) [DecidableEq K] (c : TTLCache K V) (now : Int) (k : K) (v : V)
      (ttl : Option Int) (hd : K × CacheEntry V) (tl : List (K × CacheEntry V)),
      c.cache = hd :: tl → c.max_size ≤ c.cache.length →
      containsKey c.cache k = false →
      (c.set now k v ttl).cache
        = tl ++ [(k, CacheEntry.make now v (ttl.getD c.default_ttl))] ∧
      ((c.cache.map Prod.fst).Nodup →
        containsKey (c.set now k v ttl).cache hd.1 = false)) ∧
    (∀ (K V : Type) [DecidableEq K] (c : TTLCache K V) (now : Int) (k : K) (v : V)
      (ttl : Option Int), containsKey c.cache k = true →
      (c.cache.map Prod.fst).Nodup →
      (c.set now k v ttl).cache.length = c.cache.length ∧
      (∀ k' : K, containsKey (c.set now k v ttl).cache k'
        = containsKey c.cache k') ∧
      (c.set now k v ttl).cache.getLast?
        = some (k, CacheEntry.make now v (ttl.getD c.default_ttl))) ∧
    (∀ (K V : Type) [DecidableEq K] (c : TTLCache K V) (now : Int) (k : K)
      (e : CacheEntry V), lookupKey c.cache k = some e →
      e.is_expired now = false →
      ((c.get now k).2).cache.getLast? = some (k, e)) ∧
    ((lruDemo3.get 0 "a").1 = none ∧
      ((lruDemo3.get 0 "a").2.get 0 "b").1 = some 2 ∧
      (((lruDemo3.get 0 "a").2.get 0 "b").2.get 0 "c").1 = some 3) := by
  refine ⟨?_, ?_, ?_, ?_, ?_, ?_⟩
  · intro K V _ c now k v ttl hmax hlen
    simp only [TTLCache.set]
    by_cases hcond : c.cache.length ≥ c.max_size ∧ ¬ containsKey c.cache k = true
    · rw [if_pos hcond]
      have h1 : (eraseKey (c.cache.drop 1) k).length ≤ (c.cache.drop 1).length :=
        List.length_filter_le _ _
      have h2 : (c.cache.drop 1).length = c.cache.length - 1 := by
        simp [List.length_drop]
      have hlen1 : 1 ≤ c.cache.length := le_trans hmax hcond.1
      rw [List.length_append]
      simp only [List.length_singleton]
      omega
    · rw [if_neg hcond]
      rw [List.length_append]
      simp only [List.length_singleton]
      rcases Decidable.not_and_iff_or_not.mp hcond with hlt | hcon
      · have : c.cache.length < c.max_size := not_le.mp hlt
        have h1 : (eraseKey c.cache k).length ≤ c.cache.length :=
          List.length_filter_le _ _
        omega
      · have hcon' : containsKey c.cache k = true := by
          by_contra hc
          exact hcon (by simp [hc])
        have := length_eraseKey_lt_of_contains c.cache k hcon'
        omega
  · intro K V _ c now k
    unfold TTLCache.get
    cases hl : lookupKey c.cache k with
    | none => exact le_refl _
    | some e =>
      by_cases hexp : e.is_expired now = true
      · simp only [hexp, not_true, Bool.true_eq_false, if_false, ite_false]
        exact le_of_lt (length_eraseKey_lt_of_contains c.cache k (by simp [containsKey, hl]))
      · simp only [hexp, Bool.false_eq_true, not_false_eq_true, if_true, ite_true]
        show (moveToEnd c.cache k).length ≤ c.cache.length
        unfold moveToEnd
        rw [hl, List.length_append]
        simp only [List.length_singleton]
        have := length_eraseKey_lt_of_contains c.cache k (by simp [containsKey, hl])
        omega
  · intro K V _ c now k v ttl hd tl hcache hcap hfresh
    have hcond : c.cache.length ≥ c.max_size ∧ ¬ containsKey c.cache k = true := by
      exact ⟨hcap, by simp [hfresh]⟩
    have htailfresh : containsKey tl k = false := by
      rw [← Bool.not_eq_true, containsKey_eq_true_iff]
      intro hmem
      have : containsKey c.cache k = true := by
        rw [containsKey_eq_true_iff, hcache]
        simp [hmem]
      rw [hfresh] at this
      exact Bool.false_ne_true this
    have hmain : (c.set now k v ttl).cache
        = tl ++ [(k, CacheEntry.make now v (ttl.getD c.default_ttl))] := by
      simp only [TTLCache.set]
      rw [if_pos hcond, hcache]
      rw [show (hd :: tl).drop 1 = tl from rfl]
      rw [eraseKey_of_not_contains tl k htailfresh]
    refine ⟨hmain, ?_⟩
    intro hnd
    rw [hmain]
    have hhdk : hd.1 ≠ k := by
      intro hc
      have : containsKey c.cache k = true := by
        rw [containsKey_eq_true_iff, hcache, ← hc]
        simp
      rw [hfresh] at this
      exact Bool.false_ne_true this
    have hhdtl : hd.1 ∉ tl.map Prod.fst := by
      rw [hcache] at hnd
      simp only [List.map_cons, List.nodup_cons] at hnd
      exact hnd.1
    rw [← Bool.not_eq_true, containsKey_eq_true_iff]
    simp only [List.map_append, List.map_cons, List.map_nil, List.mem_append,
      List.mem_cons, List.not_mem_nil]
    push_neg
    exact ⟨hhdtl, hhdk, by simp⟩
  · intro K V _ c now k v ttl hcon hnd
    have hcond : ¬ (c.cache.length ≥ c.max_size ∧ ¬ containsKey c.cache k = true) := by
      intro hc
      rw [hcon] at hc
      exact hc.2 rfl
    have hmain : (c.set now k v ttl).cache
        = eraseKey c.cache k ++ [(k, CacheEntry.make now v (ttl.getD c.default_ttl))] := by
      simp only [TTLCache.set]
      rw [if_neg hcond]
    refine ⟨?_, ?_, ?_⟩
    · rw [hmain, List.length_append]
      simp only [List.length_singleton]
      exact length_eraseKey_nodup c.cache k hnd hcon
    · intro k'
      rw [hmain]
      by_cases hk' : k' = k
      · subst hk'
        rw [hcon]
        simp only [containsKey, lookupKey_append, lookupKey_eraseKey_self]
        simp [lookupKey]
      · simp only [containsKey, lookupKey_append,
          lookupKey_eraseKey_ne c.cache k k' hk']
        cases hl : lookupKey c.cache k' with
        | none => simp [lookupKey, Ne.symm hk']
        | some e => rfl
    · rw [hmain]
      exact getLast?_append_singleton _ _
  · intro K V _ c now k e hl hexp
    unfold TTLCache.get
    rw [hl]
    simp only [hexp, Bool.false_eq_true, not_false_eq_true, if_true, ite_true]
    show (moveToEnd c.cache k).getLast? = some (k, e)
    unfold moveToEnd
    rw [hl]
    exact getLast?_append_singleton _ _
  · refine ⟨by decide, by decide, by decide⟩

/-- C2 witness: the eviction clause applied to a concrete full cache —
the front (LRU) binding `"a"` is evicted when fresh `"c"` arrives. -/
theorem ttlcache_lru_eviction_witness :
    (((TTLCache.empty String Nat 2 60).set 0 "a" 1 none).set 0 "b" 2 none).cache
        = [("a", CacheEntry.make 0 1 60), ("b", CacheEntry.make 0 2 60)] ∧
    ((((TTLCache.empty String Nat 2 60).set 0 "a" 1 none).set 0 "b" 2
        none).set 0 "c" 3 none).cache
      = [("b", CacheEntry.make 0 2 60), ("c", CacheEntry.make 0 3 60)] := by
  refine ⟨by decide, ?_⟩
  have h := (ttlcache_lru_eviction.2.2.1) String Nat
    (((TTLCache.empty String Nat 2 60).set 0 "a" 1 none).set 0 "b" 2 none)
    0 "c" 3 none ("a", CacheEntry.make 0 1 60) [("b", CacheEntry.make 0 2 60)]
    (by decide) (by decide) (by decide)
  exact h.1

theorem lookupKey_mem {K E : Type} [DecidableEq K]
    (l : List (K × E)) (k : K) (e : E) (h : lookupKey l k = some e) :
    (k, e) ∈ l := by
  induction l with
  | nil => simp [lookupKey] at h
  | cons p t ih =>
    simp only [lookupKey] at h
    by_cases hp : p.1 = k
    · rw [if_pos hp] at h
      have he : p.2 = e := Option.some.inj h
      have hpe : (k, e) = p := by
        cases p
        simp only at hp he
        rw [← hp, ← he]
      rw [hpe]
      exact List.mem_cons_self _ _
    · rw [if_neg hp] at h
      exact List.mem_cons_of_mem _ (ih h)

theorem mem_get_cache {K V : Type} [DecidableEq K]
    (c : TTLCache K V) (now : Int) (k : K) (p : K × CacheEntry V)
    (h : p ∈ ((c.get now k).2).cache) : p ∈ c.cache := by
  unfold TTLCache.get at h
  cases hl : lookupKey c.cache k with
  | none => rw [hl] at h; exact h
  | some e =>
    rw [hl] at h
    by_cases hexp : e.is_expired now = true
    · simp only [hexp, not_true, Bool.true_eq_false, if_false, ite_false] at h
      exact List.mem_of_mem_filter h
    · simp only [hexp, Bool.false_eq_true, not_false_eq_true, if_true,
        ite_true] at h
      unfold moveToEnd at h
      rw [hl] at h
      rcases List.mem_append.mp h with h1 | h2
      · exact List.mem_of_mem_filter h1
      · have : p = (k, e) := by simpa using h2
        rw [this]
        exact lookupKey_mem _ _ _ hl

theorem mem_set_cache {K V : Type} [DecidableEq K]
    (c : TTLCache K V) (now : Int) (k : K) (v : V) (ttl : Option Int)
    (p : K × CacheEntry V) (h : p ∈ (c.set now k v ttl).cache) :
    p ∈ c.cache ∨ p = (k, CacheEntry.make now v (ttl.getD c.default_ttl)) := by
  simp only [TTLCache.set] at h
  rcases List.mem_append.mp h with h1 | h2
  · left
    have h3 := List.mem_of_mem_filter h1
    by_cases hcond : c.cache.length ≥ c.max_size ∧ ¬ containsKey c.cache k = true
    · rw [if_pos hcond] at h3
      exact List.mem_of_mem_drop h3
    · rw [if_neg hcond] at h3
      exact h3
  · right
    simpa using h2

theorem get_result_consistent {A B : Type} [DecidableEq A]
    (f : A → Option B) (st : TTLCache A (Option B)) (now : Int) (a : A)
    (hcons : CacheConsistent f st) (o : Option B)
    (h : (st.get now a).1 = some o) : o = f a := by
  unfold TTLCache.get at h
  cases hl : lookupKey st.cache a with
  | none => rw [hl] at h; simp at h
  | some e =>
    rw [hl] at h
    by_cases hexp : e.is_expired now = true
    · simp [hexp] at h
    · simp only [hexp, Bool.false_eq_true, not_false_eq_true, if_true,
        ite_true] at h
      have he : e.value = o := Option.some.inj h
      rw [← he]
      exact hcons (a, e) (lookupKey_mem _ _ _ hl)

/-- C10: the `cache_with_ttl` wrapper never serves a `None` result from
its cache — any call that returns `None` invoked the wrapped function —
and for every argument list on which the function returns `None`, every
call from a decorator-produced (consistent) cache state re-invokes the
function and re-stores the entry, because `TTLCache.get` returns `None`
both for absence and for a cached `None` value and the wrapper treats
any `None` as a miss. -/
theorem cache_with_ttl_none_never_cached {A B : Type} [DecidableEq A]
    (f : A → Option B) (ttl : Int) (st : TTLCache A (Option B))
    (now : Int) (args : A) (hcons : CacheConsistent f st)
    (hf : f args = none) :
    (∀ st' : TTLCache A (Option B),
      (cache_with_ttl_call f ttl st' now args).1 = none →
      (cache_with_ttl_call f ttl st' now args).2.2 = true) ∧
    (cache_with_ttl_call f ttl st now args).2.2 = true ∧
    (cache_with_ttl_call f ttl st now args).1 = none ∧
    lookupKey ((cache_with_ttl_call f ttl st now args).2.1).cache args
      = some (CacheEntry.make now none ttl) ∧
    CacheConsistent f (cache_with_ttl_call f ttl st now args).2.1 := by
  have hbranch : ∀ st' : TTLCache A (Option B),
      (st'.get now args).1 = none ∨ (st'.get now args).1 = some none →
      cache_with_ttl_call f ttl st' now args
        = (f args, (st'.get now args).2.set now args (f args) (some ttl),
            true) := by
    intro st' h
    simp only [cache_with_ttl_call]
    rcases h with h | h <;> rw [h]
  have hmiss : (st.get now args).1 = none ∨ (st.get now args).1 = some none := by
    cases hr : (st.get now args).1 with
    | none => exact Or.inl rfl
    | some o =>
      have := get_result_consistent f st now args hcons o hr
      rw [hf] at this
      exact Or.inr (by rw [this])
  have hcall := hbranch st hmiss
  refine ⟨?_, ?_, ?_, ?_, ?_⟩
  · intro st' hres
    cases hr : (st'.get now args).1 with
    | none => rw [hbranch st' (Or.inl hr)]
    | some o =>
      cases o with
      | none => rw [hbranch st' (Or.inr hr)]
      | some v =>
        have hv : (cache_with_ttl_call f ttl st' now args).1 = some v := by
          simp only [cache_with_ttl_call]
          rw [hr]
        rw [hv] at hres
        simp at hres
  · rw [hcall]
  · rw [hcall]
    exact hf
  · rw [hcall, hf]
    simpa using lookupKey_after_set ((st.get now args).2) now args none (some ttl)
  · rw [hcall]
    intro p hp
    rcases mem_set_cache _ now args (f args) (some ttl) p hp with h1 | h2
    · exact hcons p (mem_get_cache st now args p h1)
    · rw [h2]
      rfl

/-- C10 witness: a constant-`None` function over an empty (hence
consistent) cache — the call invokes the function and re-stores `None`. -/
theorem cache_with_ttl_none_never_cached_witness :
    (cache_with_ttl_call (fun _ : Nat => (none : Option Nat)) 300
      (TTLCache.empty Nat (Option Nat) 8 300) 0 5).2.2 = true ∧
    (cache_with_ttl_call (fun _ : Nat => (none : Option Nat)) 300
      (TTLCache.empty Nat (Option Nat) 8 300) 0 5).1 = none := by
  have h := cache_with_ttl_none_never_cached
    (fun _ : Nat => (none : Option Nat)) 300
    (TTLCache.empty Nat (Option Nat) 8 300) 0 5
    (fun p hp => by simp [TTLCache.empty] at hp) rfl
  exact ⟨h.2.1, h.2.2.1⟩

theorem loadRepeat_cached {T : Type} (fs : Option T) (df : T)
    (st : DataLoaderState T) (hdf : st.destinations_df = some df) (n : Nat) :
    loadRepeat fs st n = .ok (List.replicate n df, st) := by
  induction n with
  | zero => rfl
  | succ n ih =>
    have hload : load_destinations fs st false = .ok (df, st) := by
      unfold load_destinations
      rw [hdf]
    simp [loadRepeat, hload, ih, List.replicate_succ]

/-- C3: repeated `load` calls without `reload` all return the same table
and read the backing file at most once in total — not at all when a
table is already cached — regardless of call count; `load(reload=True)`
re-reads the file even when a table is cached; `clear_cache()` empties
the cache so the next load re-reads. -/
theorem load_idempotent_read_once {T : Type} (fs : Option T) (t : T)
    (st : DataLoaderState T) (n : Nat) (hfs : fs = some t) :
    (∃ r stf, loadRepeat fs st n = .ok (List.replicate n r, stf) ∧
      stf.readCount ≤ st.readCount + 1 ∧
      (st.destinations_df.isSome = true → stf.readCount = st.readCount)) ∧
    (∀ df, st.destinations_df = some df →
      load_destinations fs st true
        = .ok (t, { destinations_df := some t,
                    readCount := st.readCount + 1 })) ∧
    (clear_cache st).destinations_df = none := by
  subst hfs
  refine ⟨?_, ?_, rfl⟩
  · cases hdf : st.destinations_df with
    | some df =>
      exact ⟨df, st, loadRepeat_cached _ df st hdf n, Nat.le_succ _,
        fun _ => rfl⟩
    | none =>
      cases n with
      | zero => exact ⟨t, st, rfl, Nat.le_succ _, by simp⟩
      | succ n =>
        have hload : load_destinations (some t) st false
            = .ok (t, ⟨some t, st.readCount + 1⟩) := by
          unfold load_destinations
          rw [hdf]
        refine ⟨t, ⟨some t, st.readCount + 1⟩, ?_, le_refl _, by simp⟩
        simp [loadRepeat, hload, List.replicate_succ,
          loadRepeat_cached (some t) t ⟨some t, st.readCount + 1⟩ rfl n]
  · intro df hdf
    unfold load_destinations
    rw [hdf]

/-- C3 witness: from a fresh loader state, three loads return three
equal copies after exactly one file read; a forced reload from the
cached state performs a second read. -/
theorem load_idempotent_read_once_witness :
    loadRepeat (some 42) (⟨none, 0⟩ : DataLoaderState Nat) 3
      = .ok ([42, 42, 42], ⟨some 42, 1⟩) ∧
    load_destinations (some 42) (⟨some 42, 1⟩ : DataLoaderState Nat) true
      = .ok (42, ⟨some 42, 2⟩) := by
  refine ⟨rfl, ?_⟩
  exact (load_idempotent_read_once (some 42) 42
    (⟨some 42, 1⟩ : DataLoaderState Nat) 0 rfl).2.1 42 rfl

/-- C4: validation runs its checks in the fixed order — empty table,
then missing required columns, then non-numeric values in numeric
columns, then missing values in critical columns, then non-positive
values in must-be-positive columns — raising at the first failing
category, and within that category reporting every offending column
(with its offending-value count); in particular a table both missing a
required column and containing a negative cost raises the
missing-column error, never the range error. -/
theorem validate_dataframe_order (df : Df) :
    (df.isEmptyDf = true → validate_dataframe df = .error .emptyDataFrame) ∧
    (df.isEmptyDf = false → missingColumnsOf df ≠ [] →
      validate_dataframe df
        = .error (.missingColumns (missingColumnsOf df) df.columns)) ∧
    (df.isEmptyDf = false → missingColumnsOf df = [] →
      nonNumericColumnsOf df ≠ [] →
      validate_dataframe df
        = .error (.nonNumericColumns (nonNumericColumnsOf df))) ∧
    (df.isEmptyDf = false → missingColumnsOf df = [] →
      nonNumericColumnsOf df = [] → nullCriticalOf df ≠ [] →
      validate_dataframe df
        = .error (.nullCriticalColumns (nullCriticalOf df))) ∧
    (df.isEmptyDf = false → missingColumnsOf df = [] →
      nonNumericColumnsOf df = [] → nullCriticalOf df = [] →
      nonPositiveOf df ≠ [] →
      validate_dataframe df
        = .error (.nonPositiveColumns (nonPositiveOf df))) := by
  refine ⟨?_, ?_, ?_, ?_, ?_⟩
  · intro h1
    unfold validate_dataframe
    rw [if_pos h1]
  · intro h1 h2
    unfold validate_dataframe
    rw [if_neg (by simp [h1]), if_pos h2]
  · intro h1 h2 h3
    unfold validate_dataframe
    rw [if_neg (by simp [h1]), if_neg (by simp [h2]), if_pos h3]
  · intro h1 h2 h3 h4
    unfold validate_dataframe
    rw [if_neg (by simp [h1]), if_neg (by simp [h2]), if_neg (by simp [h3]),
      if_pos h4]
  · intro h1 h2 h3 h4 h5
    unfold validate_dataframe
    rw [if_neg (by simp [h1]), if_neg (by simp [h2]), if_neg (by simp [h3]),
      if_neg (by simp [h4]), if_pos h5]

/-- C4 witness: a one-row table that is both missing required columns
(`Airport` among others) and holds a negative `Flight Cost (GBP)` raises
the missing-column error, never the range error — even though the range
check would also fire (`nonPositiveOf ≠ []`). -/
theorem validate_dataframe_order_witness :
    validate_dataframe
      ⟨[("Destination", [Cell.str "Paris"]),
        ("Flight Cost (GBP)", [Cell.num (-100)])]⟩
      = .error (.missingColumns
          (missingColumnsOf ⟨[("Destination", [Cell.str "Paris"]),
            ("Flight Cost (GBP)", [Cell.num (-100)])]⟩)
          (Df.columns ⟨[("Destination", [Cell.str "Paris"]),
            ("Flight Cost (GBP)", [Cell.num (-100)])]⟩)) ∧
    nonPositiveOf ⟨[("Destination", [Cell.str "Paris"]),
      ("Flight Cost (GBP)", [Cell.num (-100)])]⟩ ≠ [] := by
  refine ⟨?_, by decide⟩
  exact (validate_dataframe_order
    ⟨[("Destination", [Cell.str "Paris"]),
      ("Flight Cost (GBP)", [Cell.num (-100)])]⟩).2.1 (by decide) (by decide)

/-- C6 (code bug): on the mixed `forecast_flag` column
`["TRUE", "FALSE", "maybe"]` the CSV reader's boolean inference fails,
the cells stay strings, and `.astype(bool)` coerces them by Python
truthiness — so the cell holding the literal `"FALSE"`, a non-empty
string, coerces to `true`, where the claim (and the repository's own
`test_load_weather_filter_forecast_only`) requires `false`.  Only on an
all-literal column (second conjunct) does the reader's inference map
`"FALSE"` to `false`. -/
theorem forecast_flag_astype_truthiness :
    loadWeatherForecastFlag ["TRUE", "FALSE", "maybe"]
      = [true, true, true] ∧
    loadWeatherForecastFlag ["TRUE", "FALSE"] = [true, false] := by
  exact ⟨rfl, rfl⟩

/-- C8: the membership filter with an empty selected-set is the
identity: the chart component applies no destination filter for an
empty (falsy) list; the callback replaces an empty selection by the
full name list, which — whenever every weather row references a known
destination — also keeps every row; and a load call with no
data-source tag applies no source filter and returns the full table. -/
theorem empty_selection_no_filter (weather : List WeatherRow)
    (dests : List DestRow) (costs : List CostRow)
    (hfk : ∀ w ∈ weather, ∃ d ∈ dests, d.destination_id = w.destination_id) :
    create_temperature_chart_filter weather dests [] = weather ∧
    create_temperature_chart_filter weather dests
      (update_temperature_chart_selected dests []) = weather ∧
    filterByDataSource CostRow.data_source none costs = costs := by
  refine ⟨rfl, ?_, rfl⟩
  have hsel : update_temperature_chart_selected dests []
      = dests.map DestRow.name := rfl
  rw [hsel]
  by_cases hd : dests = []
  · subst hd
    rfl
  · unfold create_temperature_chart_filter
    rw [if_neg (by simp [List.isEmpty_iff, hd])]
    have hall : dests.filter (fun d => decide (d.name ∈ dests.map DestRow.name))
        = dests := by
      rw [List.filter_eq_self]
      intro d hdm
      simp only [decide_eq_true_eq]
      exact List.mem_map_of_mem _ hdm
    rw [hall]
    rw [List.filter_eq_self]
    intro w hw
    simp only [decide_eq_true_eq]
    obtain ⟨d, hdm, hid⟩ := hfk w hw
    exact List.mem_map.mpr ⟨d, hdm, hid⟩

/-- C8 witness: one destination, two weather rows referencing it, and a
two-row cost table — the empty selection keeps both weather rows and the
absent source tag keeps both cost rows. -/
theorem empty_selection_no_filter_witness :
    create_temperature_chart_filter
      [⟨1, 1, 10, 20, 25, 15, 0, 5, 8, true, "demo1"⟩,
       ⟨2, 1, 11, 21, 26, 16, 1, 6, 9, false, "demo1"⟩]
      [⟨1, "Alicante", "Spain"⟩]
      (update_temperature_chart_selected [⟨1, "Alicante", "Spain"⟩] [])
      = [⟨1, 1, 10, 20, 25, 15, 0, 5, 8, true, "demo1"⟩,
         ⟨2, 1, 11, 21, 26, 16, 1, 6, 9, false, "demo1"⟩] ∧
    filterByDataSource CostRow.data_source none
      [⟨1, 10, 1500, "demo1"⟩, ⟨1, 11, 1600, "demo2"⟩]
      = [⟨1, 10, 1500, "demo1"⟩, ⟨1, 11, 1600, "demo2"⟩] := by
  have h := empty_selection_no_filter
    [⟨1, 1, 10, 20, 25, 15, 0, 5, 8, true, "demo1"⟩,
     ⟨2, 1, 11, 21, 26, 16, 1, 6, 9, false, "demo1"⟩]
    [⟨1, "Alicante", "Spain"⟩]
    [⟨1, 10, 1500, "demo1"⟩, ⟨1, 11, 1600, "demo2"⟩]
    (by decide)
  exact ⟨h.2.1, h.2.2⟩

/-- C9: a persisted cache file that exists but is malformed — invalid
JSON, an envelope missing its `expiry` or `data` field, an `expiry`
that does not parse as a date, or a dataframe-tagged value missing its
`_data`/`_columns` fields — makes `CacheManager.get` delete the file
and return `None`, exactly a cache miss; no error propagates for these
cases. -/
theorem decodeData_malformed (store : List (String × CacheFile))
    (key : String) (data : Json) (h : malformedData data = true) :
    CacheManager.decodeData store key data = .ok (none, eraseKey store key) := by
  cases data with
  | obj dfields =>
    replace h : malformedDataObj dfields = true := h
    have hred : CacheManager.decodeData store key (Json.obj dfields)
        = CacheManager.decodeDataObj store key dfields := rfl
    rw [hred]
    unfold malformedDataObj at h
    unfold CacheManager.decodeDataObj
    cases ht : lookupKey dfields "_type" with
    | none =>
      rw [ht] at h
      exact Bool.noConfusion h
    | some tv =>
      rw [ht] at h
      cases tv with
      | str t =>
        simp only [] at h ⊢
        by_cases htd : t = "dataframe"
        · rw [if_pos htd] at h ⊢
          cases hd : lookupKey dfields "_data" with
          | none => cases hc : lookupKey dfields "_columns" <;> rfl
          | some dv =>
            rw [hd] at h
            cases hc : lookupKey dfields "_columns" with
            | none => rfl
            | some cv =>
              rw [hc] at h
              exact Bool.noConfusion h
        · rw [if_neg htd] at h
          exact Bool.noConfusion h
      | null => exact Bool.noConfusion h
      | bool b => exact Bool.noConfusion h
      | num n => exact Bool.noConfusion h
      | arr es => exact Bool.noConfusion h
      | obj fs => exact Bool.noConfusion h
  | null => exact Bool.noConfusion h
  | bool b => exact Bool.noConfusion h
  | num n => exact Bool.noConfusion h
  | str s => exact Bool.noConfusion h
  | arr es => exact Bool.noConfusion h

theorem getEnvelope_malformed (store : List (String × CacheFile))
    (now : Int) (key : String) (fields : List (String × Json))
    (hmal : malformedFields fields = true) :
    CacheManager.getEnvelope store now key fields
      = .ok (none, eraseKey store key) := by
  unfold malformedFields at hmal
  unfold CacheManager.getEnvelope
  cases hexp : lookupKey fields "expiry" with
  | none => rfl
  | some v =>
    rw [hexp] at hmal
    cases v with
    | str s =>
      simp only [] at hmal ⊢
      cases hp : parseIsoDate s with
      | none => rfl
      | some expiry =>
        rw [hp] at hmal
        simp only [] at hmal ⊢
        by_cases hng : now > expiry
        · rw [if_pos hng]
        · rw [if_neg hng]
          cases hdata : lookupKey fields "data" with
          | none => rfl
          | some data =>
            rw [hdata] at hmal
            exact decodeData_malformed store key data hmal
    | null => exact Bool.noConfusion hmal
    | bool b => exact Bool.noConfusion hmal
    | num n => exact Bool.noConfusion hmal
    | arr es => exact Bool.noConfusion hmal
    | obj fs => exact Bool.noConfusion hmal

theorem cachemanager_malformed_is_miss (store : List (String × CacheFile))
    (now : Int) (key : String) (f : CacheFile)
    (hf : lookupKey store key = some f) (hmal : malformedEnvelope f = true) :
    CacheManager.get store now key = .ok (none, eraseKey store key) := by
  cases f with
  | notJson =>
    unfold CacheManager.get
    rw [hf]
  | json j =>
    cases j with
    | obj fields =>
      have hred : CacheManager.get store now key
          = CacheManager.getEnvelope store now key fields := by
        unfold CacheManager.get
        rw [hf]
      rw [hred]
      exact getEnvelope_malformed store now key fields
        (by simpa [malformedEnvelope] using hmal)
    | null => simp [malformedEnvelope] at hmal
    | bool b => simp [malformedEnvelope] at hmal
    | num n => simp [malformedEnvelope] at hmal
    | str s => simp [malformedEnvelope] at hmal
    | arr es => simp [malformedEnvelope] at hmal

/-- C9 witness: a store holding an unparsable cache file under `"k"` and
a store holding a JSON envelope missing its `expiry` field — both gets
return `None` and delete the file, without error. -/
theorem cachemanager_malformed_is_miss_witness :
    CacheManager.get [("k", CacheFile.notJson)] 0 "k"
      = .ok (none, ([] : List (String × CacheFile))) ∧
    CacheManager.get [("k", CacheFile.json (Json.obj []))] 0 "k"
      = .ok (none, ([] : List (String × CacheFile))) := by
  constructor
  · exact cachemanager_malformed_is_miss [("k", CacheFile.notJson)] 0 "k"
      CacheFile.notJson rfl rfl
  · exact cachemanager_malformed_is_miss
      [("k", CacheFile.json (Json.obj []))] 0 "k"
      (CacheFile.json (Json.obj [])) rfl rfl

/-- C5: `load_all` first collapses the cost table to exactly one row
per destination — the row with the maximum date — before left-joining it
onto destinations by id, then joins flight rows by id with fan-out:
one destination with two cost rows of different dates and three flight
rows yields exactly three result rows (not six), each carrying the
latest-dated cost row's values. -/
theorem load_all_latest_cost_fanout (d : DestRow) (c1 c2 : CostRow)
    (f1 f2 f3 : FlightRow)
    (h1 : c1.destination_id = d.destination_id)
    (h2 : c2.destination_id = d.destination_id)
    (hd12 : c1.data_date ≠ c2.data_date)
    (g1 : f1.destination_id = d.destination_id)
    (g2 : f2.destination_id = d.destination_id)
    (g3 : f3.destination_id = d.destination_id) :
    load_all [d] [c1, c2] [f1, f2, f3] [] none
      = [{ dest := d,
           cost := some (if c1.data_date < c2.data_date then c2 else c1),
           flight := some f1, weather := none },
         { dest := d,
           cost := some (if c1.data_date < c2.data_date then c2 else c1),
           flight := some f2, weather := none },
         { dest := d,
           cost := some (if c1.data_date < c2.data_date then c2 else c1),
           flight := some f3, weather := none }] := by
  by_cases hle : c1.data_date ≤ c2.data_date
  · have hlt : c1.data_date < c2.data_date := lt_of_le_of_ne hle hd12
    simp [load_all, filterByDataSource, latestCostPerDestination, sortByDate,
      insertByDate, sortedUniqueIds, insertSortedUnique, lastRowFor,
      mergeLeftCost, mergeLeftFlights, h1, h2, g1, g2, g3, hle, hlt]
  · have hlt : ¬ c1.data_date < c2.data_date := fun hc => hle (le_of_lt hc)
    simp [load_all, filterByDataSource, latestCostPerDestination, sortByDate,
      insertByDate, sortedUniqueIds, insertSortedUnique, lastRowFor,
      mergeLeftCost, mergeLeftFlights, h1, h2, g1, g2, g3, hle, hlt]

/-- C5 witness: one destination, cost rows dated 5 and 8, three flights
— three result rows, all carrying the date-8 cost values. -/
theorem load_all_latest_cost_fanout_witness :
    load_all [⟨1, "Alicante", "Spain"⟩]
      [⟨1, 5, 1500, "demo1"⟩, ⟨1, 8, 1600, "demo1"⟩]
      [⟨11, 1, 20, 120, "demo1"⟩, ⟨12, 1, 21, 130, "demo1"⟩,
       ⟨13, 1, 22, 140, "demo1"⟩] [] none
      = [⟨⟨1, "Alicante", "Spain"⟩, some ⟨1, 8, 1600, "demo1"⟩,
          some ⟨11, 1, 20, 120, "demo1"⟩, none⟩,
         ⟨⟨1, "Alicante", "Spain"⟩, some ⟨1, 8, 1600, "demo1"⟩,
          some ⟨12, 1, 21, 130, "demo1"⟩, none⟩,
         ⟨⟨1, "Alicante", "Spain"⟩, some ⟨1, 8, 1600, "demo1"⟩,
          some ⟨13, 1, 22, 140, "demo1"⟩, none⟩] := by
  have h := load_all_latest_cost_fanout ⟨1, "Alicante", "Spain"⟩
    ⟨1, 5, 1500, "demo1"⟩ ⟨1, 8, 1600, "demo1"⟩
    ⟨11, 1, 20, 120, "demo1"⟩ ⟨12, 1, 21, 130, "demo1"⟩
    ⟨13, 1, 22, 140, "demo1"⟩ rfl rfl (by decide) rfl rfl rfl
  simpa using h

theorem mem_insertByDate (a c : CostRow) (l : List CostRow) :
    a ∈ insertByDate c l ↔ a = c ∨ a ∈ l := by
  induction l with
  | nil => simp [insertByDate]
  | cons d t ih =>
    unfold insertByDate
    by_cases h : c.data_date ≤ d.data_date
    · rw [if_pos h]
      simp [List.mem_cons]
    · rw [if_neg h]
      simp only [List.mem_cons, ih]
      tauto

theorem mem_sortByDate (a : CostRow) (l : List CostRow) :
    a ∈ sortByDate l ↔ a ∈ l := by
  induction l with
  | nil => simp [sortByDate]
  | cons c t ih =>
    unfold sortByDate at *
    rw [List.foldr_cons, mem_insertByDate]
    simp [ih]

theorem mem_insertSortedUnique (a i : Int) (l : List Int) :
    a ∈ insertSortedUnique i l ↔ a = i ∨ a ∈ l := by
  induction l with
  | nil => simp [insertSortedUnique]
  | cons j t ih =>
    unfold insertSortedUnique
    by_cases h1 : i = j
    · rw [if_pos h1]
      subst h1
      simp only [List.mem_cons]
      tauto
    · rw [if_neg h1]
      by_cases h2 : i < j
      · rw [if_pos h2]
        simp only [List.mem_cons]
      · rw [if_neg h2]
        simp only [List.mem_cons, ih]
        tauto

theorem mem_sortedUniqueIds (a : Int) (l : List Int) :
    a ∈ sortedUniqueIds l ↔ a ∈ l := by
  induction l with
  | nil => simp [sortedUniqueIds]
  | cons i t ih =>
    unfold sortedUniqueIds at *
    rw [List.foldr_cons, mem_insertSortedUnique]
    simp [ih]

theorem getLast?_mem_self {α : Type} (l : List α) (a : α)
    (h : l.getLast? = some a) : a ∈ l := by
  induction l with
  | nil => simp [List.getLast?] at h
  | cons x t ih =>
    cases t with
    | nil =>
      simp [List.getLast?] at h
      simp [h]
    | cons y t' =>
      rw [List.getLast?_cons_cons] at h
      exact List.mem_cons_of_mem _ (ih h)

theorem getLast?_isSome_of_ne_nil {α : Type} (l : List α) (h : l ≠ []) :
    ∃ a, l.getLast? = some a := by
  induction l with
  | nil => cases h rfl
  | cons x t ih =>
    cases t with
    | nil => exact ⟨x, rfl⟩
    | cons y t' =>
      obtain ⟨a, ha⟩ := ih (by simp)
      exact ⟨a, by rw [List.getLast?_cons_cons]; exact ha⟩

theorem lastRowFor_isSome (rows : List CostRow) (i : Int)
    (h : ∃ c ∈ rows, c.destination_id = i) :
    ∃ c', lastRowFor rows i = some c' ∧ c'.destination_id = i := by
  obtain ⟨c, hc, hci⟩ := h
  have hmemf : c ∈ rows.filter (fun c => decide (c.destination_id = i)) :=
    List.mem_filter.mpr ⟨hc, by simp [hci]⟩
  obtain ⟨c', hc'⟩ := getLast?_isSome_of_ne_nil _ (List.ne_nil_of_mem hmemf)
  refine ⟨c', hc', ?_⟩
  have hmem' := getLast?_mem_self _ _ hc'
  have := List.of_mem_filter hmem'
  simpa using this

theorem latest_contains (costs : List CostRow) (i : Int)
    (h : ∃ c ∈ costs, c.destination_id = i) :
    ∃ c', c' ∈ latestCostPerDestination costs ∧ c'.destination_id = i := by
  obtain ⟨c, hc, hci⟩ := h
  have hidmem : i ∈ sortedUniqueIds (costs.map (fun c => c.destination_id)) := by
    rw [mem_sortedUniqueIds]
    exact List.mem_map.mpr ⟨c, hc, hci⟩
  obtain ⟨c', hlast, hid⟩ := lastRowFor_isSome (sortByDate costs) i
    ⟨c, (mem_sortByDate c costs).mpr hc, hci⟩
  refine ⟨c', ?_, hid⟩
  unfold latestCostPerDestination
  exact List.mem_filterMap.mpr ⟨i, hidmem, hlast⟩

theorem weatherAggFor_isSome (weather : List WeatherRow) (i : Int)
    (h : ∃ w ∈ weather, w.destination_id = i) :
    (weatherAggFor weather i).isSome = true := by
  obtain ⟨w, hw, hwi⟩ := h
  have hmem : w ∈ weather.filter (fun w => decide (w.destination_id = i)) :=
    List.mem_filter.mpr ⟨hw, by simp [hwi]⟩
  unfold weatherAggFor
  cases hfil : weather.filter (fun w => decide (w.destination_id = i)) with
  | nil =>
    rw [hfil] at hmem
    cases hmem
  | cons a t => rfl

/-- C7: `get_aggregates` returns exactly one row per destination; when
the flight table is empty after data-source filtering, the flight
aggregate columns are entirely absent — not present as zeros — while the
cost and weather aggregates remain populated (their column groups exist
exactly when their filtered inputs are non-empty, and each destination
with matching cost / weather rows gets a value); no error is raised (the
function is total), and the same omission behaviour holds for an empty
cost or weather input. -/
theorem get_aggregates_omits_empty_flights (dests : List DestRow)
    (costs : List CostRow) (flights : List FlightRow)
    (weather : List WeatherRow) (ds : Option String)
    (hfl : filterByDataSource FlightRow.data_source ds flights = []) :
    (get_aggregates dests costs flights weather ds).rows.length
      = dests.length ∧
    (get_aggregates dests costs flights weather ds).rows.map
      AggRow.destination_id = dests.map DestRow.destination_id ∧
    (get_aggregates dests costs flights weather ds).has_flight_cols
      = false ∧
    (∀ r ∈ (get_aggregates dests costs flights weather ds).rows,
      r.flight = none) ∧
    (get_aggregates dests costs flights weather ds).has_cost_cols
      = !(filterByDataSource CostRow.data_source ds costs).isEmpty ∧
    (get_aggregates dests costs flights weather ds).has_weather_cols
      = !(filterByDataSource WeatherRow.data_source ds weather).isEmpty ∧
    (∀ r ∈ (get_aggregates dests costs flights weather ds).rows,
      (∃ c ∈ filterByDataSource CostRow.data_source ds costs,
        c.destination_id = r.destination_id) →
      r.monthly_living_cost.isSome = true) ∧
    (∀ r ∈ (get_aggregates dests costs flights weather ds).rows,
      (∃ w ∈ filterByDataSource WeatherRow.data_source ds weather,
        w.destination_id = r.destination_id) →
      r.weather.isSome = true) := by
  refine ⟨?_, ?_, ?_, ?_, ?_, ?_, ?_, ?_⟩
  · simp [get_aggregates]
  · simp [get_aggregates, List.map_map]
  · simp [get_aggregates, hfl]
  · intro r hr
    simp only [get_aggregates, List.mem_map] at hr
    obtain ⟨d, hd, hrd⟩ := hr
    rw [← hrd]
    simp [hfl]
  · simp [get_aggregates]
  · simp [get_aggregates]
  · intro r hr hex
    simp only [get_aggregates, List.mem_map] at hr
    obtain ⟨d, hd, hrd⟩ := hr
    rw [← hrd] at hex ⊢
    simp only []
    have hne : (filterByDataSource CostRow.data_source ds costs).isEmpty
        = false := by
      obtain ⟨c, hc, _⟩ := hex
      cases hl : filterByDataSource CostRow.data_source ds costs with
      | nil =>
        rw [hl] at hc
        cases hc
      | cons a t => rfl
    rw [if_neg (by simp [hne])]
    have hfind : (List.find?
        (fun c => decide (c.destination_id = d.destination_id))
        (latestCostPerDestination
          (filterByDataSource CostRow.data_source ds costs))).isSome
        = true := by
      rw [List.find?_isSome]
      obtain ⟨c', hmem, hid⟩ := latest_contains _ d.destination_id hex
      exact ⟨c', hmem, by simp [hid]⟩
    obtain ⟨c', hc'⟩ := Option.isSome_iff_exists.mp hfind
    rw [hc']
    rfl
  · intro r hr hex
    simp only [get_aggregates, List.mem_map] at hr
    obtain ⟨d, hd, hrd⟩ := hr
    rw [← hrd] at hex ⊢
    simp only []
    have hne : (filterByDataSource WeatherRow.data_source ds weather).isEmpty
        = false := by
      obtain ⟨w, hw, _⟩ := hex
      cases hl : filterByDataSource WeatherRow.data_source ds weather with
      | nil =>
        rw [hl] at hw
        cases hw
      | cons a t => rfl
    rw [if_neg (by simp [hne])]
    exact weatherAggFor_isSome _ d.destination_id hex

/-- C7 witness: one destination with a cost row and a weather row, plus
a flight table whose only row is filtered out by the `demo1` source tag
— the aggregate has one row, absent flight columns, and populated cost
and weather aggregates. -/
theorem get_aggregates_omits_empty_flights_witness :
    (get_aggregates [⟨1, "Alicante", "Spain"⟩] [⟨1, 5, 1500, "demo1"⟩]
      [⟨11, 1, 20, 120, "live"⟩]
      [⟨1, 1, 10, 20, 25, 15, 0, 5, 8, true, "demo1"⟩]
      (some "demo1")).has_flight_cols = false ∧
    (get_aggregates [⟨1, "Alicante", "Spain"⟩] [⟨1, 5, 1500, "demo1"⟩]
      [⟨11, 1, 20, 120, "live"⟩]
      [⟨1, 1, 10, 20, 25, 15, 0, 5, 8, true, "demo1"⟩]
      (some "demo1")).rows.length = 1 := by
  have h := get_aggregates_omits_empty_flights [⟨1, "Alicante", "Spain"⟩]
    [⟨1, 5, 1500, "demo1"⟩] [⟨11, 1, 20, 120, "live"⟩]
    [⟨1, 1, 10, 20, 25, 15, 0, 5, 8, true, "demo1"⟩] (some "demo1")
    (by decide)
  exact ⟨h.2.2.1, h.1⟩

end Places2Go
